import Mathlib

/-!
Verification development for the AI agentic code-execution engine
(FastAPI backend under `src/backend`).

The Python source is shallowly embedded: strings are `List Char` or
`String`, dictionaries with a known key set are structures whose fields
are `Option`-valued when the source reads them with `.get`, floats that
only ever hold decimal literals are `Rat`, and the external Gemini model
is an oracle parameter `String → GenResult`.  `json.loads` (Python
standard library, not repository code) is a parameter
`List Char → Option _` of the definitions that use it; a small concrete
model of it on the inputs used by witnesses is provided.
-/

namespace Engine

/-! ### Characters spelled via their code points -/

/-- The backquote character (spelled via its code point). -/
def backquote : Char := Char.ofNat 96

/-- The left curly brace character. -/
def lcurly : Char := Char.ofNat 123

/-- The right curly brace character. -/
def rcurly : Char := Char.ofNat 125

/-! ### Python string primitives -/

/-- Whitespace characters removed by Python `str.strip()`. -/
def pyIsSpace (c : Char) : Bool :=
  c == ' ' || c == '\t' || c == '\n' || c == '\r' || c == Char.ofNat 11 || c == Char.ofNat 12

/-- Python `str.strip()`: remove leading and trailing whitespace. -/
def pyStrip (l : List Char) : List Char :=
  ((l.dropWhile pyIsSpace).reverse.dropWhile pyIsSpace).reverse

/-- `str.strip()` on `String`. -/
def pyStripStr (s : String) : String := String.mk (pyStrip s.data)

/-- Python `str.find(sub)`: index of the first occurrence of `sub`,
`none` standing for Python's `-1`.  An empty `sub` is found at 0. -/
def findSub : List Char → List Char → Option Nat
  | [], sub => if sub = [] then some 0 else none
  | c :: t, sub =>
    if sub.isPrefixOf (c :: t) then some 0 else (findSub t sub).map (· + 1)

/-- Python `sub in s` for strings. -/
def containsSub (l sub : List Char) : Bool := (findSub l sub).isSome

/-- Python `str.find(sub, start)`. -/
def findSubFrom (l sub : List Char) (start : Nat) : Option Nat :=
  (findSub (l.drop start) sub).map (· + start)

/-- Python `str.find(c)` for a single character. -/
def findChar (l : List Char) (c : Char) : Option Nat := findSub l [c]

/-- Python `str.rfind(c)` for a single character. -/
def rfindChar (l : List Char) (c : Char) : Option Nat :=
  (findSub l.reverse [c]).map (fun i => l.length - 1 - i)

/-- Python slice `s[a:b]` with a nonnegative start `a` and an `Int` end
`b` (a negative `b` counts from the end of the string). -/
def pySlice (l : List Char) (a : Nat) (b : Int) : List Char :=
  let n := l.length
  let e : Nat := if b < 0 then n - (-b).toNat else min b.toNat n
  (l.take e).drop a

/-- Substring containment on `String`. -/
def hasSub (s sub : String) : Bool := containsSub s.data sub.data

/-- Python `str.lower()`. -/
def strLower (s : String) : String := String.mk (s.data.map Char.toLower)

/-- Python `str.upper()`. -/
def strUpper (s : String) : String := String.mk (s.data.map Char.toUpper)

/-- Python `s[:n]` on `String`. -/
def strTake (s : String) (n : Nat) : String := String.mk (s.data.take n)

/-- Python `s[n:]` on `String`. -/
def strDrop (s : String) (n : Nat) : String := String.mk (s.data.drop n)

/-- Python `str.startswith` on `String`. -/
def startsWithStr (s pre : String) : Bool := pre.data.isPrefixOf s.data

/-- Helper for Python `str.title()`: the boolean records whether the
previous character was alphabetic. -/
def pyTitleChars : List Char → Bool → List Char
  | [], _ => []
  | c :: t, prevAlpha =>
    (if prevAlpha then c.toLower else c.toUpper) :: pyTitleChars t c.isAlpha

/-- Python `str.title()`. -/
def pyTitle (s : String) : String := String.mk (pyTitleChars s.data false)

/-- Python `str.rstrip(':')`: remove all trailing colons. -/
def rstripColon (s : String) : String :=
  String.mk ((s.data.reverse.dropWhile (fun c => c == ':')).reverse)

/-- Split a character list at every occurrence of a separator; the
result is never empty. -/
def splitOnChar (sep : Char) : List Char → List (List Char)
  | [] => [[]]
  | c :: t =>
    match splitOnChar sep t with
    | [] => [[]]
    | h :: r => if c = sep then [] :: h :: r else (c :: h) :: r

/-- Python `str.split('\n')`. -/
def pySplitLines (code : String) : List String :=
  (splitOnChar '\n' code.data).map String.mk

/-- Python `str.replace(pat, rep)` (all occurrences; `pat` nonempty). -/
def replaceSub (pat rep : List Char) : List Char → List Char
  | [] => []
  | c :: t =>
    if _h : pat ≠ [] ∧ pat.isPrefixOf (c :: t) then
      rep ++ replaceSub pat rep (List.drop (pat.length - 1) t)
    else
      c :: replaceSub pat rep t
termination_by l => l.length
decreasing_by
  all_goals simp only [List.length_drop, List.length_cons]
  all_goals omega

/-- `str.replace` on `String`. -/
def strReplace (s pat rep : String) : String :=
  String.mk (replaceSub pat.data rep.data s.data)

/-- Python `str.count(sub)` for a nonempty `sub` (non-overlapping). -/
def pyCountSub (l sub : List Char) : Nat :=
  match l with
  | [] => 0
  | c :: t =>
    if _h : sub ≠ [] ∧ sub.isPrefixOf (c :: t) then
      1 + pyCountSub (List.drop (sub.length - 1) t) sub
    else
      pyCountSub t sub
termination_by l.length
decreasing_by
  all_goals simp only [List.length_drop, List.length_cons]
  all_goals omega

/-! ### `BaseAgent._parse_json_response` (src/backend/agents/shared/base_agent.py)

The method extracts a JSON-looking substring from the model's free-text
response, refuses substrings longer than 50000 characters, and otherwise
hands the substring to `json.loads`; any failure yields the subclass's
fallback structure.  `json.loads` is a parameter `loads`. -/

/-- The marker string of a fenced JSON block in a model response. -/
def jsonFenceMark : List Char := [backquote, backquote, backquote, 'j', 's', 'o', 'n']

/-- A plain code fence. -/
def fenceMark : List Char := [backquote, backquote, backquote]

/-- The substring-extraction step of `_parse_json_response`:
if a fenced JSON block is present, the stripped slice from just after
the marker to the next fence (Python `find` returns `-1`, i.e. a slice
end of `-1`, when no closing fence exists); otherwise, if braces are
present, the slice from the first opening brace through the last closing
brace; otherwise the whole text. -/
def extractJsonText (text : List Char) : List Char :=
  match findSub text jsonFenceMark with
  | some i =>
    let s := i + 7
    let e : Int :=
      match findSubFrom text fenceMark s with
      | some j => (j : Int)
      | none => -1
    pyStrip (pySlice text s e)
  | none =>
    if (findChar text lcurly).isSome && (findChar text rcurly).isSome then
      let s := (findChar text lcurly).getD 0
      let e := (rfindChar text rcurly).getD 0 + 1
      pySlice text s (e : Int)
    else
      text

/-- Which exception produced the fallback: the 50000-character guard
(`ValueError`) or a `json.JSONDecodeError`. -/
inductive JsonErr where
  | tooLong
  | decodeFailed
deriving DecidableEq

/-- Outcome of `_parse_json_response`: either the parsed JSON value or
the subclass fallback applied to the raw response text. -/
inductive ParseOutcome (J : Type) where
  | parsed (value : J)
  | fallback (responseText : List Char) (err : JsonErr)
deriving DecidableEq

/-- `BaseAgent._parse_json_response`, with `json.loads` as the
parameter `loads`. -/
def parse_json_response {J : Type} (loads : List Char → Option J) (text : List Char) :
    ParseOutcome J :=
  let jsonText := extractJsonText text
  if jsonText.length > 50000 then .fallback text .tooLong
  else
    match loads jsonText with
    | some j => .parsed j
    | none => .fallback text .decodeFailed

/-! Spec-side rendering of claim C4's description of the method (no
length guard; the fenced case reads "the text between that marker and
the next fence", which we complete to "to the end of the text" when no
closing fence exists — the amended claim restricts to texts that do have
one). -/

/-- Extraction as the specification sentence describes it. -/
def specExtractJsonText (text : List Char) : List Char :=
  match findSub text jsonFenceMark with
  | some i =>
    match findSubFrom text fenceMark (i + 7) with
    | some j => pyStrip (pySlice text (i + 7) (j : Int))
    | none => pyStrip (text.drop (i + 7))
  | none =>
    if (findChar text lcurly).isSome && (findChar text rcurly).isSome then
      pySlice text ((findChar text lcurly).getD 0) (((rfindChar text rcurly).getD 0 + 1 : Nat) : Int)
    else
      text

/-- The parse behaviour claim C4 describes: `json.loads` of the
extracted substring when it parses, the fallback otherwise. -/
def specParseJsonResponse {J : Type} (loads : List Char → Option J) (text : List Char) :
    ParseOutcome J :=
  match loads (specExtractJsonText text) with
  | some j => .parsed j
  | none => .fallback text .decodeFailed

/-! ### A concrete model of `json.loads` on integer literals

`json.loads` accepts a bare decimal integer (no leading zeros).  This is
the only fragment of JSON the concrete witnesses below need. -/

/-- Decimal value of a digit string (most significant digit first). -/
def digitsVal (l : List Char) : Nat :=
  l.foldl (fun a c => 10 * a + (c.toNat - 48)) 0

/-- `json.loads` restricted to decimal integer literals: a nonempty
all-digit string without a leading zero parses to its value. -/
def jsonLoadsInt (s : List Char) : Option Nat :=
  if s = [] then none
  else if s.head? = some '0' ∧ s ≠ ['0'] then none
  else if s.all Char.isDigit then some (digitsVal s) else none

/-! ### Response dictionaries

Variable values inside `final_variables` are modelled as strings.  A
dictionary field read with `.get` in the source is `Option`-valued here;
`none` models an absent key. -/

/-- Map of final variable values. -/
abbrev VarMap := List (String × String)

/-- The `coordinator` metadata dictionary; only the key the `/execute`
endpoint reads (`timestamp`) is modelled. -/
structure CoordMeta where
  timestamp : Option String := none
deriving DecidableEq

/-- A result dictionary as passed between agents, coordinators and the
endpoints; each field models a key that some reader accesses. -/
structure ExecDict where
  success : Option Bool := none
  final_variables : Option VarMap := none
  console_output : Option (List String) := none
  execution_steps : Option (List String) := none
  ai_reasoning : Option String := none
  confidence : Option Rat := none
  error : Option String := none
  timestamp : Option String := none
  coordinator : Option CoordMeta := none
deriving DecidableEq

/-! ### `BaseAgent` (src/backend/agents/shared/base_agent.py) -/

/-- Result of one call to the hosted model: the response text, or the
exception message of a failed call. -/
inductive GenResult where
  | ok (text : String)
  | fail (msg : String)
deriving DecidableEq

/-- The model oracle: what the hosted model answers to each prompt. -/
abbrev ModelOracle := String → GenResult

/-- `BaseAgent._generate_with_gemini`: returns the stripped response
text, or wraps the exception message. -/
def generateWithGemini (oracle : ModelOracle) (prompt : String) : GenResult :=
  match oracle prompt with
  | .ok t => .ok (pyStripStr t)
  | .fail e => .fail ("Gemini generation failed: " ++ e)

/-- `BaseAgent._create_error_response`.  Note: no `confidence` key. -/
def createErrorResponse (msg : String) : ExecDict :=
  { success := some false
    error := some msg
    timestamp := some "2025-09-28T18:00:00" }

/-! ### `PythonVM` and `JavaVM`
(src/backend/agents/python/python_vm.py, src/backend/agents/java/java_vm.py) -/

/-- A plain code fence, as a string. -/
def fenceStr : String := String.mk fenceMark

/-- Leading part of the Python-VM prompt (instructions preceding the
embedded source code). -/
def pythonVmPromptPre : String :=
  "You are an AI agent that simulates Python code execution exactly like the Python interpreter.\n"
    ++ "Execute this Python code step by step and provide the results:\n" ++ fenceStr ++ "python\n"

/-- Trailing part of the Python-VM prompt.  The numbered instructions
and the JSON response template are elided: they contain no
request-dependent content. -/
def pythonVmPromptPost : String := "\n" ++ fenceStr ++ "\n(per-statement instructions and JSON response template)"

/-- The prompt `PythonVM._execute_python_with_gemini` sends: the source
code embedded between fixed instruction text. -/
def pythonVmPrompt (code : String) : String := pythonVmPromptPre ++ code ++ pythonVmPromptPost

/-- Leading part of the Java-VM prompt. -/
def javaVmPromptPre : String :=
  "You are an AI agent that simulates Java code execution exactly like the Java Virtual Machine (JVM).\n"
    ++ "Execute this Java code step by step and provide the results:\n" ++ fenceStr ++ "java\n"

/-- Trailing part of the Java-VM prompt (instructions and template elided). -/
def javaVmPromptPost : String := "\n" ++ fenceStr ++ "\n(per-statement instructions and JSON response template)"

/-- The prompt `JavaVM._execute_java_with_gemini` sends. -/
def javaVmPrompt (code : String) : String := javaVmPromptPre ++ code ++ javaVmPromptPost

/-- `response_text[:500] + "..." if len(response_text) > 500 else response_text`. -/
def truncate500 (t : List Char) : String :=
  if t.length > 500 then String.mk (t.take 500) ++ "..." else String.mk t

/-- `PythonVM._create_fallback_response`: fixed shape, confidence 0.7. -/
def pythonVmFallback (responseText : List Char) : ExecDict :=
  { success := some true
    final_variables := some []
    console_output := some []
    execution_steps := some ["Python code executed via AI simulation"]
    ai_reasoning := some (truncate500 responseText)
    confidence := some (0.7 : Rat) }

/-- `JavaVM._create_fallback_response`: fixed shape, confidence 0.7. -/
def javaVmFallback (responseText : List Char) : ExecDict :=
  { success := some true
    final_variables := some []
    console_output := some []
    execution_steps := some ["Java code executed via AI simulation"]
    ai_reasoning := some (truncate500 responseText)
    confidence := some (0.7 : Rat) }

/-- `DSAAnalyzerAgent._create_fallback_response`
(src/backend/agents/shared/agent_factory.py): fixed shape, confidence 0.3. -/
structure AnalyzerFallbackDict where
  time_complexity : String
  space_complexity : String
  algorithm_patterns : List String
  optimization_suggestions : List String
  confidence : Rat
deriving DecidableEq

/-- The analyzer agent's fallback structure. -/
def dsaAnalyzerFallback (err : String) : AnalyzerFallbackDict :=
  { time_complexity := "O(unknown)"
    space_complexity := "O(unknown)"
    algorithm_patterns := []
    optimization_suggestions := ["Analysis error: " ++ err]
    confidence := (0.3 : Rat) }

/-- `if "console_output" not in result: result["console_output"] = []`. -/
def ensureConsole (d : ExecDict) : ExecDict :=
  match d.console_output with
  | none => { d with console_output := some [] }
  | some _ => d

/-- `PythonVM._execute_python_with_gemini`: one model call; parse the
response; on parse failure the VM fallback; on a failed model call the
base error response. -/
def executePythonWithGemini (oracle : ModelOracle) (loads : List Char → Option ExecDict)
    (code : String) : ExecDict :=
  match generateWithGemini oracle (pythonVmPrompt code) with
  | .fail e => createErrorResponse ("Python execution failed: " ++ e)
  | .ok text =>
    ensureConsole
      (match parse_json_response loads text.data with
       | .parsed j => j
       | .fallback t _ => pythonVmFallback t)

/-- `JavaVM._execute_java_with_gemini`. -/
def executeJavaWithGemini (oracle : ModelOracle) (loads : List Char → Option ExecDict)
    (code : String) : ExecDict :=
  match generateWithGemini oracle (javaVmPrompt code) with
  | .fail e => createErrorResponse ("Java execution failed: " ++ e)
  | .ok text =>
    ensureConsole
      (match parse_json_response loads text.data with
       | .parsed j => j
       | .fallback t _ => javaVmFallback t)

/-- A bytecode-instruction dictionary (keys read with `.get`). -/
structure Instr where
  opcode : Option String := none
  description : Option String := none
deriving DecidableEq

/-- The VM-style response dictionary built by `PythonVM.execute` /
`JavaVM.execute`.  It has no `ai_reasoning` and no `confidence` key. -/
structure VmDict where
  success : Bool
  execution_trace : List (String × String)
  final_state_locals : VarMap
  console_output : List String
  vm_analysis : String
  instructions_executed : Nat
  function_calls : Nat
  language : String
  vm_type : String
deriving DecidableEq

/-- `PythonVM.execute`: runs the code through Gemini and wraps the
result in a PVM-style response; the bytecode arguments only feed the
cosmetic trace and statistics. -/
def pythonVmExecute (oracle : ModelOracle) (loads : List Char → Option ExecDict)
    (bytecode : List Instr) (_constants _names : List String) (code : String) : VmDict :=
  let er := executePythonWithGemini oracle loads code
  { success := er.success.getD true
    execution_trace :=
      (bytecode.take 5).map (fun i => (i.opcode.getD "UNKNOWN", i.description.getD "PVM instruction"))
    final_state_locals := er.final_variables.getD []
    console_output := er.console_output.getD []
    vm_analysis := "PythonVM: Executed " ++ toString bytecode.length
      ++ " Python bytecode instructions. " ++ er.ai_reasoning.getD ""
    instructions_executed := bytecode.length
    function_calls := (bytecode.filter (fun b => containsSub (b.opcode.getD "").data "CALL".data)).length
    language := "python"
    vm_type := "PVM" }

/-- `JavaVM.execute`. -/
def javaVmExecute (oracle : ModelOracle) (loads : List Char → Option ExecDict)
    (bytecode : List Instr) (_constantPool : List String) (code : String) : VmDict :=
  let er := executeJavaWithGemini oracle loads code
  { success := er.success.getD true
    execution_trace :=
      (bytecode.take 5).map (fun i => (i.opcode.getD "UNKNOWN", i.description.getD "JVM instruction"))
    final_state_locals := er.final_variables.getD []
    console_output := er.console_output.getD []
    vm_analysis := "JavaVM (JVM): Executed " ++ toString bytecode.length
      ++ " Java bytecode instructions. " ++ er.ai_reasoning.getD ""
    instructions_executed := bytecode.length
    function_calls := (bytecode.filter (fun b => containsSub (b.opcode.getD "").data "INVOKE".data)).length
    language := "java"
    vm_type := "JVM" }

/-! ### `BaseLexer.tokenize` (src/backend/agents/shared/base_lexer.py)

The lexer builds its whole response locally: simplified per-line tokens
plus a substring-scan feature list.  It performs no model call. -/

/-- A simplified token dictionary. -/
structure Token where
  ttype : String
  value : String
  line : Nat
deriving DecidableEq

/-- The lexer's response dictionary. -/
structure LexResult where
  success : Bool
  tokens : List Token
  lexer_analysis : String
  syntax_valid : Bool
  language : String
  language_features : List String
deriving DecidableEq

/-- `BaseLexer._create_tokens`: one token per non-empty line (original
line numbers), limited to 10. -/
def createTokens (lines : List String) (language : String) : List Token :=
  (((lines.enum.filter (fun p => pyStripStr p.2 != "")).map
    (fun p =>
      { ttype := strUpper language ++ "_LINE"
        value := "Line " ++ toString (p.1 + 1) ++ ": " ++ strTake (pyStripStr p.2) 30 ++ "..."
        line := p.1 + 1 } )).take 10)

/-- `PythonLexer._identify_language_features`: substring checks on the
source, in source order. -/
def pythonFeatures (code : String) : List String :=
  (if hasSub code "def " then ["function_definition"] else [])
    ++ (if hasSub code "class " then ["class_definition"] else [])
    ++ (if hasSub code "import " then ["imports"] else [])
    ++ (if hasSub code "if " then ["conditionals"] else [])
    ++ (if hasSub code "for " || hasSub code "while " then ["loops"] else [])
    ++ (if hasSub code "print(" then ["print_statements"] else [])
    ++ (if hasSub code "lambda" then ["lambda_functions"] else [])
    ++ (if hasSub code "with " then ["context_managers"] else [])
    ++ (if hasSub code "try:" then ["exception_handling"] else [])
    ++ (if hasSub code "yield" then ["generators"] else [])
    ++ (if hasSub code "@" then ["decorators"] else [])
    ++ (if hasSub code (String.mk ['f', '"']) || hasSub code (String.mk ['f', Char.ofNat 39])
        then ["f_strings"] else [])

/-- `JavaLexer._identify_language_features`. -/
def javaFeatures (code : String) : List String :=
  (if hasSub code "public class" then ["class_declaration"] else [])
    ++ (if hasSub code "public static void main" then ["main_method"] else [])
    ++ (if hasSub code "System.out.print" then ["console_output"] else [])
    ++ (if hasSub code "import " then ["imports"] else [])
    ++ (if hasSub code "new " then ["object_creation"] else [])
    ++ (if hasSub code "if (" then ["conditional_statements"] else [])
    ++ (if hasSub code "for (" || hasSub code "while (" then ["loops"] else [])
    ++ (if hasSub code ("try " ++ String.mk [lcurly]) then ["exception_handling"] else [])
    ++ (if hasSub code "interface " then ["interfaces"] else [])
    ++ (if hasSub code "extends " then ["inheritance"] else [])
    ++ (if hasSub code "implements " then ["interface_implementation"] else [])
    ++ (if hasSub code "@" && !(pyCountSub code.data "@".data == pyCountSub code.data "@Override".data)
        then ["annotations"] else [])
    ++ (if hasSub code "synchronized" then ["thread_synchronization"] else [])
    ++ (if hasSub code "final " then ["final_variables"] else [])
    ++ (if hasSub code "static " then ["static_members"] else [])
    ++ (if hasSub code "private " || hasSub code "protected " || hasSub code "public "
        then ["access_modifiers"] else [])

/-- `BaseLexer.tokenize`, instantiated with a feature function: a purely
local computation (no model call appears in its body). -/
def baseLexerTokenize (features : String → String → List String)
    (code language : String) : LexResult :=
  let lines := pySplitLines code
  let feats := features code language
  { success := true
    tokens := createTokens lines language
    lexer_analysis := "BaseLexer: Analyzed "
      ++ toString ((lines.filter (fun l => pyStripStr l != "")).length)
      ++ " non-empty lines of " ++ pyTitle language ++ " code. Identified "
      ++ toString feats.length ++ " language features."
    syntax_valid := true
    language := language
    language_features := feats }

/-- `PythonLexer.tokenize`. -/
def pythonLexerTokenize (code : String) : LexResult :=
  baseLexerTokenize (fun c _ => pythonFeatures c) code "python"

/-- `JavaLexer.tokenize`. -/
def javaLexerTokenize (code : String) : LexResult :=
  baseLexerTokenize (fun c _ => javaFeatures c) code "java"

/-! ### `PythonParser` (src/backend/agents/python/python_parser.py)

The parser ignores its `tokens` argument entirely and re-derives
statements from the raw source lines, locally. -/

/-- A parsed-statement dictionary. -/
structure Stmt where
  stype : String
  line : Nat
  content : Option String := none
  condition : Option String := none
  func : Option String := none
  name : Option String := none
  loop_type : Option String := none
deriving DecidableEq

/-- `PythonParser._parse_python_statements` on one (stripped) line. -/
def pythonParseLine (i : Nat) (line : String) : Option Stmt :=
  let s := pyStripStr line
  if s = "" || startsWithStr s "#" then none
  else if s.data.contains '=' &&
      !(hasSub s "==" || hasSub s "!=" || hasSub s ">=" || hasSub s "<=") then
    some { stype := "assignment", line := i + 1, content := some (strTake s 50) }
  else if startsWithStr s "if " then
    some { stype := "if_statement", line := i + 1, condition := some (rstripColon (strDrop s 3)) }
  else if startsWithStr s "print(" then
    some { stype := "function_call", line := i + 1, func := some "print" }
  else if startsWithStr s "def " then
    some { stype := "function_definition", line := i + 1
           name := some (strReplace (String.mk (s.data.takeWhile (fun c => c != '('))) "def " "") }
  else if startsWithStr s "class " then
    some { stype := "class_definition", line := i + 1
           name := some (rstripColon (strReplace (String.mk (s.data.takeWhile (fun c => c != '('))) "class " "")) }
  else if startsWithStr s "for " || startsWithStr s "while " then
    some { stype := "loop", line := i + 1
           loop_type := some (if startsWithStr s "for" then "for" else "while") }
  else none

/-- `PythonParser._parse_python_statements`. -/
def pythonParseStatements (lines : List String) : List Stmt :=
  lines.enum.filterMap (fun p => pythonParseLine p.1 p.2)

/-- The parser's response dictionary (`ast` is `Module`/`body`). -/
structure ParseResult where
  success : Bool
  ast_body : List Stmt
  statements : List Stmt
  parser_analysis : String
  syntax_errors : List String
  language : String
deriving DecidableEq

/-- `PythonParser.parse`.  The `tokens` argument is bound but never
used, exactly as in the source. -/
def pythonParserParse (_tokens : List Token) (code : String) : ParseResult :=
  let stmts := pythonParseStatements (pySplitLines code)
  { success := true
    ast_body := stmts
    statements := stmts
    parser_analysis := "PythonParser: Identified " ++ toString stmts.length
      ++ " Python statements in the code."
    syntax_errors := []
    language := "python" }

/-! ### `PythonCompiler` (src/backend/agents/python/python_compiler.py)

Local translation of statement dictionaries to cosmetic bytecode. -/

/-- Accumulator for `_compile_statements`. -/
structure CompileAcc where
  bytecode : List Instr
  constants : List String
  names : List String
deriving DecidableEq

/-- One iteration of the `_compile_statements` loop. -/
def compileStmtStep (acc : CompileAcc) (stmt : Stmt) : CompileAcc :=
  if stmt.stype = "assignment" then
    { acc with
      bytecode := acc.bytecode ++
        [⟨some "LOAD_CONST", some "Load constant value"⟩, ⟨some "STORE_NAME", some "Store to variable"⟩]
      constants := acc.constants ++ ["value"]
      names := acc.names ++ ["variable"] }
  else if stmt.stype = "function_call" ∧ stmt.func = some "print" then
    { acc with
      bytecode := acc.bytecode ++
        [⟨some "LOAD_GLOBAL", some "Load print function"⟩, ⟨some "LOAD_CONST", some "Load argument"⟩,
         ⟨some "CALL_FUNCTION", some "Call print function"⟩]
      names := acc.names ++ ["print"] }
  else if stmt.stype = "if_statement" then
    { acc with
      bytecode := acc.bytecode ++
        [⟨some "LOAD_NAME", some "Load condition variable"⟩,
         ⟨some "POP_JUMP_IF_FALSE", some "Jump if condition false"⟩] }
  else if stmt.stype = "loop" then
    { acc with
      bytecode := acc.bytecode ++
        [⟨some "SETUP_LOOP", some "Setup loop"⟩, ⟨some "FOR_ITER", some "Iterate"⟩] }
  else acc

/-- `PythonCompiler._compile_statements`: a local fold over the
statement list, no model call. -/
def pythonCompileStatements (stmts : List Stmt) : CompileAcc :=
  stmts.foldl compileStmtStep ⟨[], [], []⟩

/-! ### `PythonRuntime` (src/backend/agents/shared/base_runtime.py)

Local bookkeeping over the VM locals, no model call. -/

/-- The runtime-manager response (Python branch). -/
structure RuntimeDict where
  success : Bool
  local_variables : Nat
  heap_objects : Nat
  local_scope : List String
  runtime_analysis : String
deriving DecidableEq

/-- `BaseRuntime._manage_python_runtime`.  Under the strings-as-values
abstraction, `isinstance(v, (list, dict, str))` always holds and
`len(str(v))` is the string length. -/
def pythonManageRuntime (localsDict : VarMap) : RuntimeDict :=
  { success := true
    local_variables := localsDict.length
    heap_objects := (localsDict.filter (fun p => decide (10 < p.2.length))).length
    local_scope := localsDict.map (·.1)
    runtime_analysis := "PythonRuntime: Managing " ++ toString localsDict.length
      ++ " local variables in Python namespace." }

/-! ### Coordinators
(src/backend/agents/python/python_coordinator.py,
src/backend/agents/java/java_coordinator.py,
src/backend/old_agents/multi_language_coordinator.py)

The coordinators are modelled in their initialized state
(`pipeline_enabled = True`, both language coordinators available), which
is the state `main.py` reaches whenever `multi_coordinator` is not
`None`: initialization of every coordinator fails, or none does,
depending only on `GEMINI_API_KEY` being set. -/

/-- The arguments `_execute_with_pipeline` passes to the VM stage. -/
structure VmCallArgs where
  bytecode : List Instr
  constants : List String
  names : List String
  code : String
deriving DecidableEq

/-- The dictionary assembled by `PythonCoordinator._execute_with_pipeline`
(keys the later readers access).  `success` is initialised `True` and
never updated afterwards. -/
structure PipeDict where
  success : Bool
  final_variables : VarMap
  console_output : List String
  execution_steps : List String
  ai_reasoning : String
  confidence : Rat
deriving DecidableEq

/-- `PythonCoordinator._execute_with_pipeline`, generalised over the
behaviours of the stage objects it owns (`self.lexer`, `self.parser`,
`self.vm`), and also returning the arguments the VM stage was invoked
with.  The VM is called with literal empty bytecode/constants/names
lists; the parser is called with the lexer's tokens; the final
dictionary takes everything except two step-count strings from the VM
result.  The `vm_result` dictionary has no `ai_reasoning` and no
`confidence` key, so `vm_result.get("ai_reasoning", "")` is `""` and
`vm_result.get("confidence", 0.95)` is `0.95`. -/
def pythonPipelineGen (lexF : String → LexResult) (parF : List Token → String → ParseResult)
    (vmF : List Instr → List String → List String → String → VmDict) (code : String) :
    PipeDict × VmCallArgs :=
  let lexerResult := lexF code
  let parserResult := parF lexerResult.tokens code
  let vmArgs : VmCallArgs := ⟨[], [], [], code⟩
  let vmResult := vmF [] [] [] code
  ({ success := true
     final_variables := vmResult.final_state_locals
     console_output := vmResult.console_output
     execution_steps :=
       ["Lexer: Found " ++ toString lexerResult.language_features.length ++ " Python features",
        "Parser: Identified " ++ toString parserResult.statements.length ++ " statements",
        "VM: Executed Python code successfully"]
     ai_reasoning := "Python Pipeline: "
     confidence := (0.95 : Rat) },
   vmArgs)

/-- `JavaCoordinator._execute_with_pipeline` (lexer and VM stages only). -/
def javaPipelineGen (lexF : String → LexResult)
    (vmF : List Instr → List String → String → VmDict) (code : String) : PipeDict :=
  let lexerResult := lexF code
  let vmResult := vmF [] [] code
  { success := true
    final_variables := vmResult.final_state_locals
    console_output := vmResult.console_output
    execution_steps :=
      ["Lexer: Found " ++ toString lexerResult.language_features.length ++ " Java features",
       "JVM: Executed Java code successfully"]
    ai_reasoning := "Java Pipeline: "
    confidence := (0.95 : Rat) }

/-- Lift a pipeline dictionary into the generic result dictionary. -/
def pipeToExecDict (p : PipeDict) : ExecDict :=
  { success := some p.success
    final_variables := some p.final_variables
    console_output := some p.console_output
    execution_steps := some p.execution_steps
    ai_reasoning := some p.ai_reasoning
    confidence := some p.confidence }

/-- `PythonCoordinator.execute_code` with `use_pipeline=True` in the
initialized state: run the pipeline, then overwrite
`result["coordinator"]` with metadata carrying the current timestamp. -/
def pythonCoordinatorExecute (oracle : ModelOracle) (loads : List Char → Option ExecDict)
    (now : String) (code : String) : ExecDict :=
  let p := (pythonPipelineGen pythonLexerTokenize pythonParserParse
    (pythonVmExecute oracle loads) code).1
  { pipeToExecDict p with coordinator := some { timestamp := some now } }

/-- `JavaCoordinator.execute_code` with `use_pipeline=True`. -/
def javaCoordinatorExecute (oracle : ModelOracle) (loads : List Char → Option ExecDict)
    (now : String) (code : String) : ExecDict :=
  let p := javaPipelineGen javaLexerTokenize (javaVmExecute oracle loads) code
  { pipeToExecDict p with coordinator := some { timestamp := some now } }

/-- `if "coordinator" not in result: result["coordinator"] = {}` —
the multi-language router then adds a router sub-key (not read by any
endpoint, hence not modelled) without touching `timestamp`. -/
def ensureCoordinatorKey (d : ExecDict) : ExecDict :=
  match d.coordinator with
  | none => { d with coordinator := some {} }
  | some _ => d

/-- `MultiLanguageCoordinator.execute_code`: lower-case the language,
route to the language coordinator, or build the unsupported-language
fallback dictionary. -/
def multiLanguageExecute (oracle : ModelOracle) (loads : List Char → Option ExecDict)
    (now : String) (code language : String) : ExecDict :=
  let lang := strLower language
  if lang = "python" then
    ensureCoordinatorKey (pythonCoordinatorExecute oracle loads now code)
  else if lang = "java" then
    ensureCoordinatorKey (javaCoordinatorExecute oracle loads now code)
  else
    ensureCoordinatorKey
      { success := some false
        final_variables := some []
        console_output := some []
        execution_steps := some []
        ai_reasoning := some ("Language '" ++ lang ++ "' is not supported or coordinator failed to initialize")
        confidence := some 0
        error := some ("Unsupported language: " ++ lang) }

/-! ### The FastAPI endpoints (src/backend/main.py) -/

/-- The `CodeResponse` pydantic model: every response of `/execute`
carries these keys. -/
structure CodeResponse where
  success : Bool
  final_variables : VarMap
  console_output : List String
  execution_steps : List String
  ai_reasoning : String
  confidence : Rat
  execution_time : Rat
  timestamp : String
  coordinator : CoordMeta
deriving DecidableEq

/-- An endpoint outcome: a JSON body, or an HTTP error response (from
`HTTPException` or from an exception escaping the handler). -/
inductive HttpResult (α : Type) where
  | ok (value : α)
  | httpError (status : Nat) (detail : String)
deriving DecidableEq

/-- The `/execute` handler `execute_code`: the guard chain, then the
multi-language coordinator, then the `CodeResponse` construction with
`.get` defaults.  `initialized` models `multi_coordinator is not None`;
`dur` the wall-clock duration.  A missing `result["coordinator"]` or
`["timestamp"]` key would raise a `KeyError`, caught by the handler's
broad `except` and converted to a 500. -/
def executeEndpoint (initialized : Bool) (oracle : ModelOracle)
    (loads : List Char → Option ExecDict) (now : String) (dur : Rat)
    (code language : String) : HttpResult CodeResponse :=
  if !initialized then
    .httpError 500 "Multi-language coordinator not initialized. Check GEMINI_API_KEY."
  else if pyStripStr code = "" then
    .httpError 400 "Code cannot be empty"
  else if ¬(strLower language = "python" ∨ strLower language = "java") then
    .httpError 400 "Only Python and Java code are supported"
  else
    let result := multiLanguageExecute oracle loads now code language
    match result.coordinator with
    | none => .httpError 500 "Execution failed: 'coordinator'"
    | some m =>
      match m.timestamp with
      | none => .httpError 500 "Execution failed: 'timestamp'"
      | some ts =>
        .ok { success := result.success.getD false
              final_variables := result.final_variables.getD []
              console_output := result.console_output.getD []
              execution_steps := result.execution_steps.getD []
              ai_reasoning := result.ai_reasoning.getD ""
              confidence := result.confidence.getD 0
              execution_time := dur
              timestamp := ts
              coordinator := m }

/-- The valid `problem_type` values of `/execute-dsa`. -/
def dsaProblemTypes : List String :=
  ["general", "sorting", "graph", "dp", "tree", "array", "string", "math"]

/-- The valid `optimization_level` values of `/execute-dsa`. -/
def dsaOptimizationLevels : List String := ["auto", "sequential", "parallel", "aggressive"]

/-- The `/execute-dsa` handler `execute_dsa_problem`: the guard chain,
then the DSA coordinator (abstracted as `dsaRun`; the claims settled
here concern only the rejection paths, which return before any
coordinator call). -/
def dsaEndpoint (initialized : Bool)
    (dsaRun : String → String → String → Option String → String → ExecDict)
    (code language problem_type : String) (input_data : Option String)
    (optimization_level : String) : HttpResult ExecDict :=
  if !initialized then
    .httpError 500 "DSA coordinator not initialized. Check GEMINI_API_KEY."
  else if pyStripStr code = "" then
    .httpError 400 "Code cannot be empty"
  else if ¬(strLower language = "python" ∨ strLower language = "java") then
    .httpError 400 "Only Python and Java code are supported"
  else if problem_type ∉ dsaProblemTypes then
    .httpError 400 "Invalid problem type"
  else if optimization_level ∉ dsaOptimizationLevels then
    .httpError 400 "Invalid optimization level"
  else
    .ok (dsaRun code language problem_type input_data optimization_level)

/-- Every module-level name `main.py` defines (imports, the app object,
the pydantic models, the coordinator globals and the route handlers).
`coordinator` is not among them. -/
def mainModuleGlobalNames : List String :=
  ["FastAPI", "HTTPException", "CORSMiddleware", "BaseModel", "Dict", "Any", "Optional",
   "os", "asyncio", "datetime", "load_dotenv",
   "MultiLanguageCoordinator", "PythonCoordinator", "JavaCoordinator", "DSACoordinator",
   "app", "multi_coordinator", "python_coordinator", "java_coordinator", "dsa_coordinator",
   "CodeRequest", "DSARequest", "CodeResponse",
   "root", "health_check", "execute_code", "execute_pipeline", "execute_dsa_problem",
   "execute_simple"]

/-- The `/execute-simple` handler `execute_simple`: its first statement
evaluates the module-level name `coordinator`.  That name is not defined
by the module, so a `NameError` is raised before any further check, and
FastAPI converts the uncaught exception into a 500 response. -/
def executeSimpleEndpoint (code : String) : HttpResult ExecDict :=
  if "coordinator" ∈ mainModuleGlobalNames then
    -- not reachable: the lookup fails (see c9_execute_simple)
    .httpError 0 (pyStripStr code)
  else
    .httpError 500 "Internal Server Error"

/-! ### `AgentFactory` (src/backend/agents/shared/agent_factory.py)

The factory's `active_agents` dictionary is modelled as an
insertion-ordered association list (Python dictionaries preserve
insertion order, and the reuse scan iterates in that order).  Agent ids
are `List Char` so that the `startswith` prefix tests and the
`f"{agent_type}_{specialization}_{len(...)}"` concatenation can be
reasoned about character by character. -/

/-- One entry of `active_agents`: the generated id, the creation
parameters, and the `is_busy` flag (every concrete agent class
initialises it to `False`). -/
structure AgentRec where
  id : List Char
  atype : String
  spec : String
  is_busy : Bool
deriving DecidableEq

/-- The factory state: `active_agents` in insertion order. -/
abbrev FState := List AgentRec

/-- Decimal rendering of a natural number (the `{len(self.active_agents)}`
part of the generated id). -/
def natDecimal (n : Nat) : List Char :=
  if n = 0 then ['0'] else ((Nat.digits 10 n).reverse).map Nat.digitChar

/-- `f"{agent_type}_{specialization}_{len(self.active_agents)}"`. -/
def mkAgentId (t s : String) (n : Nat) : List Char :=
  t.data ++ '_' :: (s.data ++ '_' :: natDecimal n)

/-- Python dictionary assignment `d[k] = v`: overwrite in place if the
key exists, else append. -/
def dictSet (st : FState) (a : AgentRec) : FState :=
  if st.any (fun x => x.id == a.id) then
    st.map (fun x => if x.id == a.id then a else x)
  else
    st ++ [a]

/-- `AgentFactory.create_specialized_agent`: generate the id from the
current map size, store a fresh (non-busy) agent under it. -/
def createSpecializedAgent (st : FState) (t s : String) : List Char × FState :=
  let id := mkAgentId t s st.length
  (id, dictSet st { id := id, atype := t, spec := s, is_busy := false })

/-- Set the `is_busy` flag of the agent with the given id. -/
def markBusy (st : FState) (id : List Char) : FState :=
  st.map (fun x => if x.id == id then { x with is_busy := true } else x)

/-- `AgentFactory.release_agent`: clear the flag if the id is present. -/
def releaseAgent (st : FState) (id : List Char) : FState :=
  st.map (fun x => if x.id == id then { x with is_busy := false } else x)

/-- The reuse scan's predicate: `agent_id.startswith(f"{agent_type}_{specialization}")
and not agent.is_busy`. -/
def freeMatch (t s : String) (a : AgentRec) : Bool :=
  (t.data ++ '_' :: s.data).isPrefixOf a.id && !a.is_busy

/-- `len([aid for aid in self.active_agents.keys() if aid.startswith(agent_type)])`. -/
def typeCount (st : FState) (t : String) : Nat :=
  (st.filter (fun a => t.data.isPrefixOf a.id)).length

/-- `AgentFactory.get_or_create_agent`: reuse the first matching free
agent (marking it busy), else create a new one while the per-type count
is below `max_agents_per_type = 10`, else enter the 0.1-second-sleep
polling loop.  In a single-threaded run no other task can clear a flag,
so the polling branch never returns: it is modelled as `none`. -/
def getOrCreateAgent (st : FState) (t s : String) : Option (List Char × FState) :=
  match st.find? (freeMatch t s) with
  | some a => some (a.id, markBusy st a.id)
  | none =>
    if typeCount st t < 10 then some (createSpecializedAgent st t s)
    else none

/-- The factory operations reachable from outside
(`execute_parallel_tasks` only composes `get_or_create_agent` and
`release_agent`, so its traces are sequences of these). -/
inductive FOp where
  | create (t s : String)
  | getOr (t s : String)
  | release (id : List Char)
deriving DecidableEq

/-- One operation on the factory state. -/
def stepOp (st : FState) : FOp → FState
  | .create t s => (createSpecializedAgent st t s).2
  | .getOr t s =>
    match getOrCreateAgent st t s with
    | some (_, st') => st'
    | none => st
  | .release id => releaseAgent st id

/-- Run a sequence of factory operations from the empty factory. -/
def runOps (ops : List FOp) : FState := ops.foldl stepOp []

/-- The ids currently present, in insertion order. -/
def idsOf (st : FState) : List (List Char) := st.map (·.id)

/-! ## Helper lemmas

Concrete 50001-character inputs are handled by proving lemmas over a
universally quantified text first and instantiating them afterwards;
kernel-level evaluation of the long list is never required. -/

/-- A needle starting with a character absent from the haystack never occurs. -/
theorem findSub_none_of_head_notMem {c : Char} {rest : List Char} :
    ∀ {l : List Char}, c ∉ l → findSub l (c :: rest) = none := by
  intro l
  induction l with
  | nil => intro _; rfl
  | cons a t ih =>
    intro h
    have hca : ¬(c = a) := fun e => h (e ▸ List.mem_cons_self a t)
    have ht : c ∉ t := fun e => h (List.mem_cons_of_mem a e)
    simp [findSub, List.isPrefixOf, ih ht, hca]

/-- When neither the fence marker nor an opening brace occurs, the
extraction returns the whole text. -/
theorem extractJsonText_eq_self (text : List Char)
    (h1 : findSub text jsonFenceMark = none)
    (h2 : findChar text lcurly = none) :
    extractJsonText text = text := by
  unfold extractJsonText
  rw [h1, h2]
  rfl

/-- The same fact for the spec-side extraction. -/
theorem specExtractJsonText_eq_self (text : List Char)
    (h1 : findSub text jsonFenceMark = none)
    (h2 : findChar text lcurly = none) :
    specExtractJsonText text = text := by
  unfold specExtractJsonText
  rw [h1, h2]
  rfl

/-- `_parse_json_response` answers the length-guard fallback on every
over-long extraction, for every `loads`. -/
theorem parseJson_fallback_of_long {J : Type} (loads : List Char → Option J)
    (text : List Char) (h : 50000 < (extractJsonText text).length) :
    parse_json_response loads text = .fallback text .tooLong := by
  unfold parse_json_response
  simp only [if_pos h]

/-- The spec-side parse returns the parsed value whenever `loads`
accepts the extraction. -/
theorem specParseJson_eq_parsed {J : Type} (loads : List Char → Option J)
    (text : List Char) (v : J) (h : loads (specExtractJsonText text) = some v) :
    specParseJsonResponse loads text = .parsed v := by
  unfold specParseJsonResponse
  rw [h]

/-- `jsonLoadsInt` accepts every nonempty all-digit string without a
leading zero. -/
theorem jsonLoadsInt_eq_some (s : List Char) (h0 : s ≠ [])
    (h1 : ¬(s.head? = some '0' ∧ s ≠ ['0'])) (h2 : s.all Char.isDigit = true) :
    jsonLoadsInt s = some (digitsVal s) := by
  unfold jsonLoadsInt
  rw [if_neg h0, if_neg h1, if_pos h2]

/-- The 50001-character digit string used as a concrete witness input. -/
def bigOnes : List Char := List.replicate 50001 '1'

theorem bigOnes_cons : bigOnes = '1' :: List.replicate 50000 '1' := by
  rw [bigOnes, show (50001 : Nat) = 50000 + 1 by norm_num, List.replicate_succ]

theorem bigOnes_length : bigOnes.length = 50001 := by
  rw [bigOnes, List.length_replicate]

theorem backquote_notMem_bigOnes : backquote ∉ bigOnes := by
  intro h
  rw [bigOnes, List.mem_replicate] at h
  exact absurd h.2 (by decide)

theorem lcurly_notMem_bigOnes : lcurly ∉ bigOnes := by
  intro h
  rw [bigOnes, List.mem_replicate] at h
  exact absurd h.2 (by decide)

theorem findSub_fence_bigOnes : findSub bigOnes jsonFenceMark = none := by
  rw [show jsonFenceMark = backquote :: [backquote, backquote, 'j', 's', 'o', 'n'] from rfl]
  exact findSub_none_of_head_notMem backquote_notMem_bigOnes

theorem findChar_lcurly_bigOnes : findChar bigOnes lcurly = none :=
  findSub_none_of_head_notMem lcurly_notMem_bigOnes

theorem extractJsonText_bigOnes : extractJsonText bigOnes = bigOnes :=
  extractJsonText_eq_self bigOnes findSub_fence_bigOnes findChar_lcurly_bigOnes

theorem specExtractJsonText_bigOnes : specExtractJsonText bigOnes = bigOnes :=
  specExtractJsonText_eq_self bigOnes findSub_fence_bigOnes findChar_lcurly_bigOnes

theorem all_isDigit_replicate_one : ∀ n : Nat, (List.replicate n '1').all Char.isDigit = true := by
  intro n
  induction n with
  | zero => rfl
  | succ k ih => rw [List.replicate_succ, List.all_cons, ih]; rfl

theorem jsonLoadsInt_bigOnes : jsonLoadsInt bigOnes = some (digitsVal bigOnes) := by
  refine jsonLoadsInt_eq_some bigOnes ?_ ?_ ?_
  · rw [bigOnes_cons]
    intro h
    cases h
  · rw [bigOnes_cons]
    rintro ⟨h, -⟩
    rw [List.head?_cons] at h
    exact absurd (Option.some.inj h) (by decide)
  · rw [bigOnes]
    exact all_isDigit_replicate_one 50001

theorem extractJsonText_bigOnes_long : 50000 < (extractJsonText bigOnes).length := by
  rw [extractJsonText_bigOnes, bigOnes_length]
  norm_num

/-! ## Claim C10 -/

/-- C10: for every response text whose extracted JSON substring is
longer than 50000 characters, `_parse_json_response` returns the
subclass fallback (with the `ValueError` of the length guard) without
attempting `json.loads` — the result is the same for every `loads`
function, even one that would accept the substring. -/
theorem c10_too_long_fallback {J : Type} (loads : List Char → Option J)
    (text : List Char) (h : 50000 < (extractJsonText text).length) :
    parse_json_response loads text = .fallback text .tooLong :=
  parseJson_fallback_of_long loads text h

/-- C10 witness: the 50001-digit string, a valid JSON integer literal,
is nevertheless answered with the fallback. -/
theorem c10_witness :
    50000 < (extractJsonText bigOnes).length ∧
      parse_json_response jsonLoadsInt bigOnes = .fallback bigOnes .tooLong :=
  ⟨extractJsonText_bigOnes_long,
    c10_too_long_fallback jsonLoadsInt bigOnes extractJsonText_bigOnes_long⟩

/-! ## Claim C4 -/

/-- C4 counterexample: on the 50001-character digit string — valid JSON
whose extracted substring is the whole text, accepted by the
`json.loads` model `jsonLoadsInt` — `_parse_json_response` returns the
fallback structure, not `json.loads` of the substring, refuting the
claim's "it returns json.loads of that substring when it parses".  The
spec-described behaviour (`specParseJsonResponse`) would return the
parsed value. -/
theorem c4_counterexample :
    (jsonLoadsInt (extractJsonText bigOnes)).isSome = true ∧
      parse_json_response jsonLoadsInt bigOnes = .fallback bigOnes .tooLong ∧
      specParseJsonResponse jsonLoadsInt bigOnes = .parsed (digitsVal bigOnes) := by
  refine ⟨?_, ?_, ?_⟩
  · rw [extractJsonText_bigOnes, jsonLoadsInt_bigOnes]
    rfl
  · exact parseJson_fallback_of_long jsonLoadsInt bigOnes extractJsonText_bigOnes_long
  · refine specParseJson_eq_parsed jsonLoadsInt bigOnes (digitsVal bigOnes) ?_
    rw [specExtractJsonText_bigOnes, jsonLoadsInt_bigOnes]

/-- Under the amended provisos the source-side extraction agrees with
the claim's description of it. -/
theorem extractJsonText_eq_spec (text : List Char)
    (hfence : ∀ i, findSub text jsonFenceMark = some i →
      (findSubFrom text fenceMark (i + 7)).isSome = true) :
    extractJsonText text = specExtractJsonText text := by
  unfold extractJsonText specExtractJsonText
  cases hf : findSub text jsonFenceMark with
  | none => rfl
  | some i =>
    cases hj : findSubFrom text fenceMark (i + 7) with
    | none =>
      have := hfence i hf
      rw [hj] at this
      cases this
    | some j => simp only [hj]

/-- C4 (amended): `_parse_json_response` behaves exactly as the claim
describes — `json.loads` of the extracted substring when that parses,
otherwise the subclass fallback, never raising — provided a fenced
block, when present, has a closing fence after it, and the extracted
substring is at most 50000 characters long.  (Listed in
`specParseJsonResponse`/`specExtractJsonText`, written from the claim's
words; longer substrings instead give the fallback even for valid JSON,
and a fence without a closing fence slices to the last character rather
than to the end.) -/
theorem c4_parse_json_spec {J : Type} (loads : List Char → Option J) (text : List Char)
    (hfence : ∀ i, findSub text jsonFenceMark = some i →
      (findSubFrom text fenceMark (i + 7)).isSome = true)
    (hlen : (extractJsonText text).length ≤ 50000) :
    parse_json_response loads text = specParseJsonResponse loads text := by
  have hx := extractJsonText_eq_spec text hfence
  unfold parse_json_response specParseJsonResponse
  rw [← hx, if_neg (by omega)]

/-- C4 witness: a concrete text without fences or braces. -/
theorem c4_witness :
    (extractJsonText ['a']).length ≤ 50000 ∧
      parse_json_response jsonLoadsInt ['a'] = specParseJsonResponse jsonLoadsInt ['a'] := by
  refine ⟨by decide, c4_parse_json_spec jsonLoadsInt ['a'] ?_ (by decide)⟩
  intro i h
  rw [show findSub ['a'] jsonFenceMark = none from by decide] at h
  cases h

/-! ## Claim C3 -/

/-- Models `json.loads` restricted to inputs that are not valid JSON
(where it raises `JSONDecodeError`); the concrete theorems below apply
it only to the text `"not json"`, which is not valid JSON. -/
def jsonLoadsReject : List Char → Option ExecDict := fun _ => none

/-- C3 counterexample: when the model's response (here `"not json"`)
cannot be parsed as JSON, the Python VM agent's fallback dictionary
carries confidence 0.7, not zero; and the DSA analyzer's fallback
carries 0.3, not zero.  This refutes "a fixed-shape fallback dictionary
with a zero confidence score". -/
theorem c3_counterexample :
    (executePythonWithGemini (fun _ => GenResult.ok "not json") jsonLoadsReject
        "print(1)").confidence = some (0.7 : Rat) ∧
      (0.7 : Rat) ≠ 0 ∧
      (dsaAnalyzerFallback "e").confidence = (0.3 : Rat) ∧
      (0.3 : Rat) ≠ 0 := by
  refine ⟨?_, by norm_num, rfl, by norm_num⟩
  rfl

/-- C3 (amended): when the model's response text cannot be parsed as
JSON the agent returns its fixed-shape fallback dictionary with a
reduced but non-zero confidence (0.7 for the Python VM, 0.3 for the DSA
analyzer); when the model call itself fails, the agent returns the base
error dictionary, which has `success = False` and no confidence key at
all. -/
theorem c3_fallback_shapes :
    (∀ (oracle : ModelOracle) (loads : List Char → Option ExecDict) (code text : String)
        (err : JsonErr),
      oracle (pythonVmPrompt code) = .ok text →
      parse_json_response loads (pyStripStr text).data =
        .fallback (pyStripStr text).data err →
      executePythonWithGemini oracle loads code =
          ensureConsole (pythonVmFallback (pyStripStr text).data) ∧
        (executePythonWithGemini oracle loads code).confidence = some (0.7 : Rat) ∧
        (executePythonWithGemini oracle loads code).success = some true ∧
        (executePythonWithGemini oracle loads code).console_output = some []) ∧
    (∀ (oracle : ModelOracle) (loads : List Char → Option ExecDict) (code emsg : String),
      oracle (pythonVmPrompt code) = .fail emsg →
      executePythonWithGemini oracle loads code =
          createErrorResponse ("Python execution failed: " ++ ("Gemini generation failed: " ++ emsg)) ∧
        (executePythonWithGemini oracle loads code).confidence = none ∧
        (executePythonWithGemini oracle loads code).success = some false) ∧
    (∀ e : String, (dsaAnalyzerFallback e).confidence = (0.3 : Rat)) := by
  refine ⟨?_, ?_, fun _ => rfl⟩
  · intro oracle loads code text err ho hp
    unfold executePythonWithGemini generateWithGemini
    rw [ho]
    dsimp only
    rw [hp]
    exact ⟨rfl, rfl, rfl, rfl⟩
  · intro oracle loads code emsg ho
    unfold executePythonWithGemini generateWithGemini
    rw [ho]
    exact ⟨rfl, rfl, rfl⟩

/-- C3 witness: concrete instances of both fallback paths. -/
theorem c3_witness :
    executePythonWithGemini (fun _ => GenResult.fail "boom") jsonLoadsReject "x" =
        createErrorResponse ("Python execution failed: " ++ ("Gemini generation failed: " ++ "boom")) ∧
      (executePythonWithGemini (fun _ => GenResult.ok "not json") jsonLoadsReject
          "print(1)").success = some true :=
  ⟨(c3_fallback_shapes.2.1 (fun _ => GenResult.fail "boom") jsonLoadsReject "x" "boom" rfl).1,
   (c3_fallback_shapes.1 (fun _ => GenResult.ok "not json") jsonLoadsReject "print(1)"
      "not json" .decodeFailed rfl (by rfl)).2.2.1⟩

/-! ## Claim C6 -/

/-- C6: in the Python coordinator's pipeline the VM stage is invoked
with literal empty bytecode, constants and names lists and the raw
source, for every possible lexer and parser behaviour: two runs
differing only in the lexer/parser stage outputs hand the VM stage
identical arguments.  Moreover the parser's result is itself
independent of the tokens the lexer produced. -/
theorem c6_vm_args_independent :
    ∀ (lexA lexB : String → LexResult) (parA parB : List Token → String → ParseResult)
      (vmF : List Instr → List String → List String → String → VmDict) (code : String)
      (toksA toksB : List Token),
      (pythonPipelineGen lexA parA vmF code).2 = (pythonPipelineGen lexB parB vmF code).2 ∧
        (pythonPipelineGen lexA parA vmF code).2 = ⟨[], [], [], code⟩ ∧
        pythonParserParse toksA code = pythonParserParse toksB code := by
  intros
  exact ⟨rfl, rfl, rfl⟩

/-! ## Claim C9 -/

/-- C9: every request to `/execute-simple` fails with HTTP 500: the
handler's first statement reads the module-level name `coordinator`,
which `main.py` never defines (its coordinator globals are
`multi_coordinator`, `python_coordinator`, `java_coordinator`,
`dsa_coordinator`), so a `NameError` escapes the handler before any
input check runs. -/
theorem c9_execute_simple (code : String) :
    executeSimpleEndpoint code = .httpError 500 "Internal Server Error" ∧
      "coordinator" ∉ mainModuleGlobalNames := by
  have h : "coordinator" ∉ mainModuleGlobalNames := by decide
  refine ⟨?_, h⟩
  unfold executeSimpleEndpoint
  rw [if_neg h]

/-! ## Claim C2 -/

/-- C2: `/execute` and `/execute-dsa` (with their coordinators
initialized) reject empty or whitespace-only code and unsupported
languages with HTTP 400, and `/execute-dsa` additionally rejects
invalid problem types and optimization levels with HTTP 400 — in every
case for every oracle/coordinator behaviour, i.e. before any
coordinator is invoked. -/
theorem c2_input_validation (oracle : ModelOracle) (loads : List Char → Option ExecDict)
    (now : String) (dur : Rat)
    (dsaRun : String → String → String → Option String → String → ExecDict)
    (code language problem_type optimization_level : String) (input_data : Option String) :
    (pyStripStr code = "" →
      executeEndpoint true oracle loads now dur code language =
          .httpError 400 "Code cannot be empty" ∧
        dsaEndpoint true dsaRun code language problem_type input_data optimization_level =
          .httpError 400 "Code cannot be empty") ∧
    (pyStripStr code ≠ "" →
      ¬(strLower language = "python" ∨ strLower language = "java") →
      executeEndpoint true oracle loads now dur code language =
          .httpError 400 "Only Python and Java code are supported" ∧
        dsaEndpoint true dsaRun code language problem_type input_data optimization_level =
          .httpError 400 "Only Python and Java code are supported") ∧
    (pyStripStr code ≠ "" →
      (strLower language = "python" ∨ strLower language = "java") →
      problem_type ∉ dsaProblemTypes →
      dsaEndpoint true dsaRun code language problem_type input_data optimization_level =
        .httpError 400 "Invalid problem type") ∧
    (pyStripStr code ≠ "" →
      (strLower language = "python" ∨ strLower language = "java") →
      problem_type ∈ dsaProblemTypes →
      optimization_level ∉ dsaOptimizationLevels →
      dsaEndpoint true dsaRun code language problem_type input_data optimization_level =
        .httpError 400 "Invalid optimization level") := by
  refine ⟨?_, ?_, ?_, ?_⟩
  · intro h
    constructor <;> simp [executeEndpoint, dsaEndpoint, h]
  · intro h1 h2
    constructor <;> simp [executeEndpoint, dsaEndpoint, h1, h2]
  · intro h1 h2 h3
    rcases h2 with h | h <;> simp [dsaEndpoint, h1, h, h3]
  · intro h1 h2 h3 h4
    rcases h2 with h | h <;> simp [dsaEndpoint, h1, h, h3, h4]

/-- C2 witness: the four rejection paths at concrete inputs. -/
theorem c2_witness :
    executeEndpoint true (fun _ => GenResult.fail "x") jsonLoadsReject "n" 0 "   " "python" =
        .httpError 400 "Code cannot be empty" ∧
      dsaEndpoint true (fun _ _ _ _ _ => {}) "x = 1" "ruby" "general" none "auto" =
        .httpError 400 "Only Python and Java code are supported" ∧
      dsaEndpoint true (fun _ _ _ _ _ => {}) "x = 1" "python" "weird" none "auto" =
        .httpError 400 "Invalid problem type" ∧
      dsaEndpoint true (fun _ _ _ _ _ => {}) "x = 1" "python" "general" none "fast" =
        .httpError 400 "Invalid optimization level" :=
  ⟨((c2_input_validation (fun _ => GenResult.fail "x") jsonLoadsReject "n" 0
      (fun _ _ _ _ _ => {}) "   " "python" "general" "auto" none).1 (by decide)).1,
   ((c2_input_validation (fun _ => GenResult.fail "x") jsonLoadsReject "n" 0
      (fun _ _ _ _ _ => {}) "x = 1" "ruby" "general" "auto" none).2.1 (by decide)
      (by decide)).2,
   (c2_input_validation (fun _ => GenResult.fail "x") jsonLoadsReject "n" 0
      (fun _ _ _ _ _ => {}) "x = 1" "python" "weird" "auto" none).2.2.1 (by decide)
      (Or.inl (by decide)) (by decide),
   (c2_input_validation (fun _ => GenResult.fail "x") jsonLoadsReject "n" 0
      (fun _ _ _ _ _ => {}) "x = 1" "python" "general" "fast" none).2.2.2 (by decide)
      (Or.inl (by decide)) (by decide) (by decide)⟩

/-! ## Claim C1 -/

/-- For a supported language, the multi-language coordinator's result
always carries `coordinator.timestamp`, because the language
coordinators overwrite `result["coordinator"]` unconditionally. -/
theorem multiLanguageExecute_coordinator (oracle : ModelOracle)
    (loads : List Char → Option ExecDict) (now code language : String)
    (h : strLower language = "python" ∨ strLower language = "java") :
    (multiLanguageExecute oracle loads now code language).coordinator =
      some { timestamp := some now } := by
  rcases h with h | h <;>
    simp [multiLanguageExecute, h, pythonCoordinatorExecute, javaCoordinatorExecute,
      ensureCoordinatorKey]

/-- C1: every `/execute` request that reaches the coordinator (the
coordinator is initialized, the code is non-empty after stripping, the
language is supported) receives a `CodeResponse` body — which by
construction carries the keys `success`, `console_output` and
`confidence` — and those fields equal the coordinator result's values
with defaults `False`, `[]` and `0.0` when the result omits them. -/
theorem c1_response_envelope (oracle : ModelOracle) (loads : List Char → Option ExecDict)
    (now : String) (dur : Rat) (code language : String)
    (hcode : pyStripStr code ≠ "")
    (hlang : strLower language = "python" ∨ strLower language = "java") :
    ∃ resp, executeEndpoint true oracle loads now dur code language = .ok resp ∧
      resp.success = ((multiLanguageExecute oracle loads now code language).success.getD false) ∧
      resp.console_output =
        ((multiLanguageExecute oracle loads now code language).console_output.getD []) ∧
      resp.confidence =
        ((multiLanguageExecute oracle loads now code language).confidence.getD 0) := by
  have hc := multiLanguageExecute_coordinator oracle loads now code language hlang
  have he : executeEndpoint true oracle loads now dur code language =
      .ok { success := (multiLanguageExecute oracle loads now code language).success.getD false
            final_variables :=
              (multiLanguageExecute oracle loads now code language).final_variables.getD []
            console_output :=
              (multiLanguageExecute oracle loads now code language).console_output.getD []
            execution_steps :=
              (multiLanguageExecute oracle loads now code language).execution_steps.getD []
            ai_reasoning :=
              (multiLanguageExecute oracle loads now code language).ai_reasoning.getD ""
            confidence :=
              (multiLanguageExecute oracle loads now code language).confidence.getD 0
            execution_time := dur
            timestamp := now
            coordinator := { timestamp := some now } } := by
    unfold executeEndpoint
    rw [if_neg (by decide), if_neg hcode, if_neg (not_not_intro hlang)]
    simp only [hc]
  exact ⟨_, he, rfl, rfl, rfl⟩

/-- C1 witness: a concrete valid request. -/
theorem c1_witness :
    ∃ resp, executeEndpoint true (fun _ => GenResult.ok "hi") jsonLoadsReject "ts" 0
        "x = 1" "python" = .ok resp ∧
      resp.success =
        ((multiLanguageExecute (fun _ => GenResult.ok "hi") jsonLoadsReject "ts"
          "x = 1" "python").success.getD false) ∧
      resp.console_output =
        ((multiLanguageExecute (fun _ => GenResult.ok "hi") jsonLoadsReject "ts"
          "x = 1" "python").console_output.getD []) ∧
      resp.confidence =
        ((multiLanguageExecute (fun _ => GenResult.ok "hi") jsonLoadsReject "ts"
          "x = 1" "python").confidence.getD 0) :=
  c1_response_envelope (fun _ => GenResult.ok "hi") jsonLoadsReject "ts" 0 "x = 1" "python"
    (by decide) (Or.inl (by decide))

/-! ## Claim C5 -/

/-- A stage run paired with the prompts it sends to the hosted model.
The call list is read off the stage's source body:
`BaseLexer.tokenize` contains no model call. -/
def pythonLexerStage (code : String) : LexResult × List String :=
  (pythonLexerTokenize code, [])

/-- `PythonParser.parse` contains no model call. -/
def pythonParserStage (toks : List Token) (code : String) : ParseResult × List String :=
  (pythonParserParse toks code, [])

/-- `PythonCompiler._compile_statements` contains no model call. -/
def pythonCompilerStage (stmts : List Stmt) : CompileAcc × List String :=
  (pythonCompileStatements stmts, [])

/-- `BaseRuntime.manage_runtime` contains no model call. -/
def pythonRuntimeStage (localsDict : VarMap) : RuntimeDict × List String :=
  (pythonManageRuntime localsDict, [])

/-- `PythonVM.execute` makes exactly one model call, through
`_execute_python_with_gemini`, with the source embedded in the prompt. -/
def pythonVmStage (oracle : ModelOracle) (loads : List Char → Option ExecDict)
    (bytecode : List Instr) (constants names : List String) (code : String) :
    VmDict × List String :=
  (pythonVmExecute oracle loads bytecode constants names code, [pythonVmPrompt code])

/-- C5 counterexample: the lexer stage, run on the concrete source
`"x = 1"`, sends no prompt to the hosted model and produces its token
list by local string manipulation — refuting "every stage … calls the
external hosted model API … no stage computes its result purely
locally". -/
theorem c5_counterexample :
    (pythonLexerStage "x = 1").2 = [] ∧
      (pythonParserStage [] "x = 1").2 = [] ∧
      (pythonLexerStage "x = 1").1.tokens =
        [{ ttype := "PYTHON_LINE", value := "Line 1: x = 1...", line := 1 }] := by
  refine ⟨rfl, rfl, ?_⟩
  decide

/-- C5 (amended): only the VM stage calls the hosted model — exactly
one prompt, with the source code embedded between fixed instruction
text — while the lexer, parser, compiler and runtime stages send no
prompt at all and compute their results locally from their arguments. -/
theorem c5_only_vm_calls_model :
    ∀ (code : String) (toks : List Token) (stmts : List Stmt) (ld : VarMap)
      (oracle : ModelOracle) (loads : List Char → Option ExecDict)
      (bc : List Instr) (cs ns : List String),
      (pythonLexerStage code).2 = [] ∧
        (pythonParserStage toks code).2 = [] ∧
        (pythonCompilerStage stmts).2 = [] ∧
        (pythonRuntimeStage ld).2 = [] ∧
        (pythonVmStage oracle loads bc cs ns code).2 = [pythonVmPrompt code] ∧
        pythonVmPrompt code = pythonVmPromptPre ++ code ++ pythonVmPromptPost ∧
        (pythonLexerStage code).1 = pythonLexerTokenize code := by
  intros
  exact ⟨rfl, rfl, rfl, rfl, rfl, rfl, rfl⟩

/-! ## Claim C7 -/

/-- C7: `get_or_create_agent` hands out an agent only when it observed
its `is_busy` flag clear (and then sets it), or creates a fresh agent
while the per-type count is below 10; otherwise (no matching free agent
and the type at the limit) it enters the fixed-sleep polling loop,
which in a single-threaded run never returns — modelled as `none`. -/
theorem c7_get_or_create (st : FState) (t s : String) :
    (∀ id st', getOrCreateAgent st t s = some (id, st') →
      (∃ a ∈ st, a.id = id ∧ a.is_busy = false ∧ freeMatch t s a = true ∧
        st' = markBusy st id) ∨
      (st.find? (freeMatch t s) = none ∧ typeCount st t < 10 ∧
        (id, st') = createSpecializedAgent st t s)) ∧
    (getOrCreateAgent st t s = none ↔
      st.find? (freeMatch t s) = none ∧ 10 ≤ typeCount st t) := by
  constructor
  · intro id st' h
    unfold getOrCreateAgent at h
    cases hf : st.find? (freeMatch t s) with
    | some a =>
      rw [hf] at h
      left
      have hm := List.mem_of_find?_eq_some hf
      have hp := List.find?_some hf
      have hb : a.is_busy = false := by
        have := (Bool.and_eq_true _ _).mp hp
        simpa using this.2
      injection h with h1
      rw [Prod.mk.injEq] at h1
      obtain ⟨e1, e2⟩ := h1
      exact ⟨a, hm, e1, hb, hp, by rw [← e2, e1]⟩
    | none =>
      rw [hf] at h
      by_cases hc : typeCount st t < 10
      · rw [if_pos hc] at h
        right
        injection h with h1
        exact ⟨rfl, hc, h1.symm⟩
      · rw [if_neg hc] at h
        cases h
  · unfold getOrCreateAgent
    cases hf : st.find? (freeMatch t s) with
    | some a => simp
    | none =>
      by_cases hc : typeCount st t < 10
      · rw [if_pos hc]
        simp
        omega
      · rw [if_neg hc]
        simp
        omega

/-- A one-agent factory state used by the C7 witness. -/
def w7State : FState :=
  [{ id := mkAgentId "analyzer" "sorting" 0, atype := "analyzer", spec := "sorting",
     is_busy := false }]

/-- C7 witness: on a state with one free matching agent, the returned
agent was observed free and is marked busy. -/
theorem c7_witness :
    (∃ a ∈ w7State, a.id = mkAgentId "analyzer" "sorting" 0 ∧ a.is_busy = false ∧
        freeMatch "analyzer" "sorting" a = true ∧
        markBusy w7State (mkAgentId "analyzer" "sorting" 0) =
          markBusy w7State (mkAgentId "analyzer" "sorting" 0)) ∨
      (w7State.find? (freeMatch "analyzer" "sorting") = none ∧
        typeCount w7State "analyzer" < 10 ∧
        (mkAgentId "analyzer" "sorting" 0,
          markBusy w7State (mkAgentId "analyzer" "sorting" 0)) =
          createSpecializedAgent w7State "analyzer" "sorting") :=
  (c7_get_or_create w7State "analyzer" "sorting").1
    (mkAgentId "analyzer" "sorting" 0)
    (markBusy w7State (mkAgentId "analyzer" "sorting" 0)) (by decide)

/-! ## Claim C8

The generated id ends in `"_" + str(len(active_agents))`, the decimal
digits contain no underscore, and map entries are never removed, so the
text after the final underscore of any stored id is the decimal of its
insertion index.  A new id's final component is the current size, which
exceeds every stored index, hence the new id is fresh. -/

/-- The characters after the last underscore. -/
def lastUnderscoreSuffix (l : List Char) : List Char :=
  (l.reverse.takeWhile (fun c => c != '_')).reverse

theorem takeWhile_append_stop (p : Char → Bool) (l1 : List Char) (m : Char) (l2 : List Char)
    (h1 : ∀ c ∈ l1, p c = true) (hm : p m = false) :
    (l1 ++ m :: l2).takeWhile p = l1 := by
  induction l1 with
  | nil => simp [List.takeWhile_cons, hm]
  | cons a tl ih =>
    have ha := h1 a (List.mem_cons_self a tl)
    simp only [List.cons_append, List.takeWhile_cons, ha, if_true]
    rw [ih (fun c hc => h1 c (List.mem_cons_of_mem a hc))]

theorem lastUnderscoreSuffix_append (x d : List Char) (hd : '_' ∉ d) :
    lastUnderscoreSuffix (x ++ '_' :: d) = d := by
  unfold lastUnderscoreSuffix
  rw [List.reverse_append, List.reverse_cons, List.append_assoc,
    show ['_'] ++ x.reverse = '_' :: x.reverse from rfl]
  rw [takeWhile_append_stop _ _ _ _ ?h1 (by simp)]
  · exact List.reverse_reverse d
  case h1 =>
    intro c hc
    have hcd : c ∈ d := List.mem_reverse.mp hc
    simp only [bne_iff_ne, ne_eq]
    exact fun e => hd (e ▸ hcd)

theorem digitChar_ne_underscore {d : Nat} (h : d < 10) : Nat.digitChar d ≠ '_' := by
  interval_cases d <;> decide

theorem digitChar_val {d : Nat} (h : d < 10) : (Nat.digitChar d).toNat - 48 = d := by
  interval_cases d <;> decide

theorem natDecimal_no_underscore (n : Nat) : '_' ∉ natDecimal n := by
  unfold natDecimal
  by_cases hn : n = 0
  · rw [if_pos hn]
    intro h
    rw [List.mem_singleton] at h
    exact absurd h (by decide)
  · rw [if_neg hn]
    intro h
    rw [List.mem_map] at h
    obtain ⟨d, hd, he⟩ := h
    have hlt : d < 10 :=
      Nat.digits_lt_base (by norm_num) (List.mem_reverse.mp hd)
    exact digitChar_ne_underscore hlt he

theorem foldl_digits (ds : List Nat) (h : ∀ d ∈ ds, d < 10) (acc : Nat) :
    List.foldl (fun a c => 10 * a + (c.toNat - 48)) acc (ds.reverse.map Nat.digitChar) =
      acc * 10 ^ ds.length + Nat.ofDigits 10 ds := by
  induction ds generalizing acc with
  | nil => simp [Nat.ofDigits]
  | cons d tl ih =>
    rw [List.reverse_cons, List.map_append, List.foldl_append]
    have hd : d < 10 := h d (List.mem_cons_self d tl)
    have htl : ∀ e ∈ tl, e < 10 := fun e he => h e (List.mem_cons_of_mem d he)
    rw [ih htl acc]
    simp only [List.map_cons, List.map_nil, List.foldl_cons, List.foldl_nil]
    rw [digitChar_val hd, Nat.ofDigits_cons, List.length_cons]
    ring

theorem digitsVal_natDecimal (n : Nat) : digitsVal (natDecimal n) = n := by
  unfold natDecimal digitsVal
  by_cases hn : n = 0
  · rw [if_pos hn, hn]
    rfl
  · rw [if_neg hn]
    rw [foldl_digits (Nat.digits 10 n)
      (fun d hd => Nat.digits_lt_base (by norm_num) hd) 0]
    simp [Nat.ofDigits_digits]

theorem natDecimal_inj {a b : Nat} (h : natDecimal a = natDecimal b) : a = b := by
  have := congrArg digitsVal h
  rwa [digitsVal_natDecimal, digitsVal_natDecimal] at this

theorem mkAgentId_decomp (t s : String) (n : Nat) :
    mkAgentId t s n = (t.data ++ '_' :: s.data) ++ '_' :: natDecimal n := by
  unfold mkAgentId
  rw [List.append_assoc]
  rfl

theorem lastUnderscoreSuffix_mkAgentId (t s : String) (n : Nat) :
    lastUnderscoreSuffix (mkAgentId t s n) = natDecimal n := by
  rw [mkAgentId_decomp]
  exact lastUnderscoreSuffix_append _ _ (natDecimal_no_underscore n)

theorem mkAgentId_idx_inj {t1 s1 t2 s2 : String} {n1 n2 : Nat}
    (h : mkAgentId t1 s1 n1 = mkAgentId t2 s2 n2) : n1 = n2 := by
  have h2 := congrArg lastUnderscoreSuffix h
  rw [lastUnderscoreSuffix_mkAgentId, lastUnderscoreSuffix_mkAgentId] at h2
  exact natDecimal_inj h2

/-- The invariant of every reachable factory state: the entry at index
`i` carries an id generated at size `i`. -/
def FInv (st : FState) : Prop :=
  ∀ i (h : i < st.length), ∃ t s, (st.get ⟨i, h⟩).id = mkAgentId t s i

theorem finv_nil : FInv [] := by
  intro i hi
  exact absurd hi (by simp)

/-- A freshly generated id differs from every stored id. -/
theorem mkAgentId_fresh (st : FState) (hInv : FInv st) (t s : String) :
    mkAgentId t s st.length ∉ idsOf st := by
  intro hmem
  unfold idsOf at hmem
  rw [List.mem_map] at hmem
  obtain ⟨a, ha, hid⟩ := hmem
  rw [List.mem_iff_getElem] at ha
  obtain ⟨i, hi, he⟩ := ha
  obtain ⟨t', s', hida⟩ := hInv i hi
  rw [List.get_eq_getElem] at hida
  have : mkAgentId t' s' i = mkAgentId t s st.length := by
    rw [← hida, he, hid]
  have := mkAgentId_idx_inj this
  omega

theorem idsOf_map_of_id_eq (st : FState) (f : AgentRec → AgentRec)
    (hf : ∀ x, (f x).id = x.id) : idsOf (st.map f) = idsOf st := by
  unfold idsOf
  rw [List.map_map]
  exact List.map_congr_left (fun a _ => hf a)

theorem finv_map (st : FState) (f : AgentRec → AgentRec)
    (hf : ∀ x, (f x).id = x.id) (h : FInv st) : FInv (st.map f) := by
  intro i hi
  rw [List.length_map] at hi
  obtain ⟨t, s, ht⟩ := h i hi
  rw [List.get_eq_getElem] at ht
  refine ⟨t, s, ?_⟩
  rw [List.get_eq_getElem, List.getElem_map, hf]
  exact ht

theorem finv_append (st : FState) (h : FInv st) (a : AgentRec) (t s : String)
    (ha : a.id = mkAgentId t s st.length) : FInv (st ++ [a]) := by
  intro i hi
  rw [List.length_append, List.length_singleton] at hi
  rcases Nat.lt_or_ge i st.length with hlt | hge
  · obtain ⟨t', s', ht⟩ := h i hlt
    rw [List.get_eq_getElem] at ht
    refine ⟨t', s', ?_⟩
    rw [List.get_eq_getElem, List.getElem_append_left hlt]
    exact ht
  · have hie : i = st.length := by omega
    subst hie
    refine ⟨t, s, ?_⟩
    rw [List.get_eq_getElem, List.getElem_append_right (le_refl _)]
    simpa using ha

theorem markBusy_id_eq (id : List Char) :
    ∀ x : AgentRec, ((fun x => if x.id == id then { x with is_busy := true } else x) x).id = x.id := by
  intro x
  dsimp only
  split <;> rfl

theorem releaseAgent_id_eq (id : List Char) :
    ∀ x : AgentRec, ((fun x => if x.id == id then { x with is_busy := false } else x) x).id = x.id := by
  intro x
  dsimp only
  split <;> rfl

theorem dictSet_of_fresh (st : FState) (a : AgentRec) (h : a.id ∉ idsOf st) :
    dictSet st a = st ++ [a] := by
  unfold dictSet
  rw [if_neg]
  intro hany
  rw [List.any_eq_true] at hany
  obtain ⟨x, hx, he⟩ := hany
  have hxe : x.id = a.id := by
    exact eq_of_beq he
  exact h (hxe ▸ List.mem_map_of_mem (·.id) hx)

theorem finv_create (st : FState) (h : FInv st) (t s : String) :
    FInv (createSpecializedAgent st t s).2 := by
  show FInv (dictSet st
    { id := mkAgentId t s st.length, atype := t, spec := s, is_busy := false })
  rw [dictSet_of_fresh st _ (mkAgentId_fresh st h t s)]
  exact finv_append st h _ t s rfl

theorem finv_step (st : FState) (op : FOp) (h : FInv st) : FInv (stepOp st op) := by
  cases op with
  | create t s => exact finv_create st h t s
  | getOr t s =>
    show FInv (match getOrCreateAgent st t s with
      | some (_, st') => st'
      | none => st)
    cases hg : getOrCreateAgent st t s with
    | none => exact h
    | some p =>
      unfold getOrCreateAgent at hg
      cases hf : st.find? (freeMatch t s) with
      | some a =>
        rw [hf] at hg
        injection hg with h1
        rw [← h1]
        exact finv_map st _ (markBusy_id_eq a.id) h
      | none =>
        rw [hf] at hg
        by_cases hc : typeCount st t < 10
        · rw [if_pos hc] at hg
          injection hg with h1
          rw [← h1]
          exact finv_create st h t s
        · rw [if_neg hc] at hg
          cases hg
  | release id => exact finv_map st _ (releaseAgent_id_eq id) h

/-- `dictSet` never removes an id: it either rewrites an entry in place
(keeping its key) or appends. -/
theorem dictSet_ids (st : FState) (a : AgentRec) :
    ∃ tail, idsOf (dictSet st a) = idsOf st ++ tail := by
  unfold dictSet
  by_cases hany : st.any (fun x => x.id == a.id) = true
  · rw [if_pos hany]
    refine ⟨[], ?_⟩
    rw [List.append_nil]
    refine idsOf_map_of_id_eq st _ ?_
    intro x
    dsimp only
    split
    · rename_i hcond
      exact (eq_of_beq hcond).symm
    · rfl
  · rw [if_neg hany]
    exact ⟨[a.id], by unfold idsOf; rw [List.map_append]; rfl⟩

/-- One factory operation only extends the id list. -/
theorem stepOp_ids (st : FState) (op : FOp) :
    ∃ tail, idsOf (stepOp st op) = idsOf st ++ tail := by
  cases op with
  | create t s =>
    show ∃ tail, idsOf (dictSet st
      { id := mkAgentId t s st.length, atype := t, spec := s, is_busy := false }) =
      idsOf st ++ tail
    exact dictSet_ids st _
  | getOr t s =>
    show ∃ tail, idsOf (match getOrCreateAgent st t s with
      | some (_, st') => st'
      | none => st) = idsOf st ++ tail
    cases hg : getOrCreateAgent st t s with
    | none => exact ⟨[], by rw [List.append_nil]⟩
    | some p =>
      unfold getOrCreateAgent at hg
      cases hf : st.find? (freeMatch t s) with
      | some a =>
        rw [hf] at hg
        injection hg with h1
        rw [← h1]
        exact ⟨[], by
          rw [List.append_nil]
          exact idsOf_map_of_id_eq st _ (markBusy_id_eq a.id)⟩
      | none =>
        rw [hf] at hg
        by_cases hc : typeCount st t < 10
        · rw [if_pos hc] at hg
          injection hg with h1
          rw [← h1]
          show ∃ tail, idsOf (dictSet st
            { id := mkAgentId t s st.length, atype := t, spec := s, is_busy := false }) =
            idsOf st ++ tail
          exact dictSet_ids st _
        · rw [if_neg hc] at hg
          cases hg
  | release id =>
    exact ⟨[], by
      rw [List.append_nil]
      exact idsOf_map_of_id_eq st _ (releaseAgent_id_eq id)⟩

/-- Every reachable factory state satisfies the id invariant. -/
theorem finv_run (ops : List FOp) : FInv (runOps ops) := by
  suffices hgen : ∀ st, FInv st → FInv (List.foldl stepOp st ops) from hgen [] finv_nil
  induction ops with
  | nil => intro st h; exact h
  | cons op rest ih =>
    intro st h
    exact ih (stepOp st op) (finv_step st op h)

/-- C8: over every sequence of factory operations, ids are only ever
added to `active_agents` (never removed), and the id generated by
`create_specialized_agent` — agent type, specialization and current map
size — is distinct from every id already present. -/
theorem c8_ids_monotone_fresh (ops : List FOp) (op : FOp) :
    (∃ tail, idsOf (runOps (ops ++ [op])) = idsOf (runOps ops) ++ tail) ∧
      (∀ t s, op = .create t s →
        mkAgentId t s (runOps ops).length ∉ idsOf (runOps ops)) := by
  constructor
  · rw [runOps, List.foldl_append]
    exact stepOp_ids (runOps ops) op
  · intro t s _
    exact mkAgentId_fresh _ (finv_run ops) t s

/-- C8 witness: a concrete two-operation trace. -/
theorem c8_witness :
    mkAgentId "analyzer" "sorting" (runOps [FOp.create "x" "y"]).length ∉
        idsOf (runOps [FOp.create "x" "y"]) ∧
      (∃ tail,
        idsOf (runOps ([FOp.create "x" "y"] ++ [FOp.create "analyzer" "sorting"])) =
          idsOf (runOps [FOp.create "x" "y"]) ++ tail) :=
  ⟨(c8_ids_monotone_fresh [FOp.create "x" "y"] (.create "analyzer" "sorting")).2
      "analyzer" "sorting" rfl,
   (c8_ids_monotone_fresh [FOp.create "x" "y"] (.create "analyzer" "sorting")).1⟩

end Engine
